import Mathlib

/-!
Verification of the hackaday.io-spam-hunter crawler/classifier core.

Shallow embedding of the Python source into Lean 4:
* `hadsh/wordstat.py`   — tokeniser statistics (`frequency`, `adjacency`).
* `hadsh/crawler/crawler.py` — the inspection pipeline `_inspect_user`,
  the discovery loop `fetch_new_user_ids` and their decision predicates.
* `hadsh/hadapi/hadapi.py`   — the rate-limited HTTP client.
* `hadsh/server.py`     — the moderator verdict applier (`ClassifyHandler.post`).

Database tables are modelled as finite maps (functions into `Option`),
machine floats as rationals, and the Tornado coroutine pipeline as pure
state-passing functions.  Each definition mirrors one piece of the source;
theorems below settle the spec claims against these definitions.
-/

namespace Hadsh

/-! ## wordstat.py -/

/-- Python dict "bump": `freq[k] += 1` with `KeyError` fallback `freq[k] = 1`,
modelling the accumulator dictionaries of `frequency` / `adjacency`. -/
def bump {α : Type} [DecidableEq α] (freq : List (α × Nat)) (k : α) : List (α × Nat) :=
  if (freq.filter (fun p => p.1 = k)).isEmpty then
    freq ++ [(k, 1)]
  else
    freq.map (fun p => if p.1 = k then (p.1, p.2 + 1) else p)

/-- Association-list lookup (first entry wins), the read side of the dicts. -/
def lookupA {α β : Type} [DecidableEq α] : List (α × β) → α → Option β
  | [], _ => none
  | (k, v) :: rest, x => if x = k then some v else lookupA rest x

/-- `wordstat.frequency(wordlist, freq)`: count how often each word appears. -/
def frequency (wordlist : List String) (freq : List (String × Nat)) :
    List (String × Nat) :=
  wordlist.foldl bump freq

/-- `wordstat.adjacency(wordlist, freq)`: count ordered pairs
`zip(wordlist[:-1], wordlist[1:])`. -/
def adjacency (wordlist : List String) (freq : List ((String × String) × Nat)) :
    List ((String × String) × Nat) :=
  (wordlist.dropLast.zip wordlist.tail).foldl bump freq

/-- Accumulators threaded through `Crawler._inspect_user`'s `tally` closure. -/
structure TallyAcc where
  user_freq : List (String × Nat)
  user_adj_freq : List ((String × String) × Nat)
deriving DecidableEq

/-- `Crawler._inspect_user.tally(field)` applied to the tokenisation of a
field: always accumulate word frequencies, but only accumulate adjacency
counts when the word list has strictly more than two words
(`if len(wordlist) > 2`). -/
def tally (wordlist : List String) (acc : TallyAcc) : TallyAcc :=
  { user_freq := frequency wordlist acc.user_freq,
    user_adj_freq :=
      if 2 < wordlist.length then adjacency wordlist acc.user_adj_freq
      else acc.user_adj_freq }

/-! ## crawler.py decision predicates -/

/-- Default crawler configuration `defer_min_age` (seconds). -/
def defer_min_age : ℚ := 3600

/-- Default crawler configuration `defer_max_age` (seconds, 28 days). -/
def defer_max_age : ℚ := 2419200

/-- Python `abs` applied to a `bool`: `abs(True) = 1`, `abs(False) = 0`. -/
def pyAbsBool (b : Bool) : Nat := if b then 1 else 0

/-- Truthiness of a Python integer. -/
def pyTruthy (n : Nat) : Bool := n != 0

/-- The deferral condition of `Crawler._inspect_user` exactly as written in
the source:
`(defer and (abs(score < 0.5) or (age < defer_min_age))) and (age < defer_max_age)`.
Note `abs` is applied to the boolean `score < 0.5`. -/
def deferConditionCode (defer : Bool) (score age : ℚ) : Bool :=
  (defer && (pyTruthy (pyAbsBool (decide (score < 1/2))) || decide (age < defer_min_age)))
    && decide (age < defer_max_age)

/-- The deferral condition as the claim states it: defer enabled, and
`age < defer_max_age`, and (`age < defer_min_age` or the score is too weak
to decide, i.e. `|score| < 0.5`). -/
def deferConditionClaim (defer : Bool) (score age : ℚ) : Bool :=
  defer && (decide (age < defer_min_age) || decide (|score| < 1/2))
    && decide (age < defer_max_age)

/-- Local names bound in the body of `Crawler._inspect_user` (parameters,
assignments, loop targets and exception targets).  The deferred-user INSERT
refers to the bare name `config`, which is not among them and not a module
global of `crawler.py`, so executing that statement raises `NameError`. -/
def inspectUserLocals : List String :=
  ["self", "user_data", "user", "defer", "users", "user_groups", "classified",
   "result", "e", "age", "match", "user_freq", "user_host_freq",
   "user_adj_freq", "user_tokens", "tally", "field", "pattern", "pmatch",
   "pg_idx", "pg_cnt", "link_res", "link", "uri_domains", "hostname",
   "uri_matched", "prj_res", "raw_projects", "raw_prj", "page_res",
   "raw_pages", "raw_page", "token", "count", "hostnames", "words",
   "word_adj", "proc_w", "follow_w", "word_adjs", "score", "w", "h", "wa",
   "trait"]

/-- Outcome of the defer/undefer step of `_inspect_user`. -/
inductive DeferOutcome
  | written
  | removed
  | nameError
deriving DecidableEq

/-- The defer/undefer step of `_inspect_user`: when the source's condition
holds it executes the `deferred_user` INSERT, whose parameter list evaluates
the unbound name `config` (raising `NameError` before any row is written);
otherwise it deletes any `deferred_user` row for the user. -/
def deferStep (defer : Bool) (score age : ℚ) : DeferOutcome :=
  if deferConditionCode defer score age then
    if "config" ∈ inspectUserLocals then DeferOutcome.written
    else DeferOutcome.nameError
  else DeferOutcome.removed

/-- The prolific-projects heuristic exactly as in the source:
`if (age > 300.0) and ((user_data['projects'] / 60.0) > 5)`. -/
def prolificConditionCode (age projects : ℚ) : Bool :=
  decide (300 < age) && decide (5 < projects / 60)

/-- The prolific-projects heuristic as the claim states it: account at least
300 s old and the project count exceeds 5 × (account age in minutes). -/
def prolificConditionClaim (age projects : ℚ) : Bool :=
  decide (300 ≤ age) && decide (5 * (age / 60) < projects)

/-- Effect of the heuristic on the `match` flag: it only ever sets it. -/
def prolificStep (m : Bool) (age projects : ℚ) : Bool :=
  if prolificConditionCode age projects then true else m

/-! ## The heuristic score of `_inspect_user` -/

/-- A corpus row (`word`, `hostname` or `word_adjacent`): signed score and
observation count, both database integers. -/
structure GlobalRow where
  score : Int
  count : Int
deriving DecidableEq

/-- Membership of one user in the four classification groups. -/
structure Groups where
  auto_legit : Bool
  auto_suspect : Bool
  legit : Bool
  suspect : Bool
deriving DecidableEq

/-- Names resolvable by attribute lookup on a `User` row object: the
methods of `Row` and `User` in `model.py`, their class attributes, the
column properties generated in `Row.__init__` and the instance attributes
set there.  `rm_groups` is not among them, so `user.rm_groups(...)` raises
`AttributeError`. -/
def userAttributes : List String :=
  ["fetch", "commit", "get_groups", "set_groups", "add_groups",
   "mask_groups", "get_detail", "get_deferral",
   "user_id", "screen_name", "url", "avatar_id", "created", "had_created",
   "last_update",
   "_TABLE_", "_PRIMARY_KEYS_", "_COLUMNS_",
   "_get_col", "_set_col", "_del_col", "_data", "_dirty", "_db"]

/-- Python `tuple(s)` applied to a string: the tuple of its 1-character
strings — what `add_groups` does to its argument in the `name IN %s`
parameter. -/
def pyTupleOfString (s : String) : List String :=
  s.data.map (fun c => String.mk [c])

/-- The names in the `group` table (the required groups of the data
model). -/
def GROUP_NAMES : List String :=
  ["admin", "auto_legit", "auto_suspect", "legit", "suspect"]

/-- `User.add_groups(groups)` invoked with a bare string, as in
`_inspect_user`: the INSERT adds an assoc row for every group whose name
is in `tuple(groups)` — the string's characters — ignoring conflicts. -/
def addGroupsString (gs : List String) (arg : String) : List String :=
  gs ++ GROUP_NAMES.filter
    (fun g => decide (g ∈ pyTupleOfString arg) && !(decide (g ∈ gs)))

/-- Result of the group-assignment tail of `_inspect_user`: either it
completes with the user's group rows, or it raises `AttributeError` for a
missing attribute, leaving the rows as they stood at that point. -/
inductive GroupTailResult
  | ok (gs : List String)
  | attrError (name : String) (gs : List String)
deriving DecidableEq

/-- `yield user.add_groups('auto_…')` followed by
`yield user.rm_groups('auto_…')`: the INSERT runs on the character tuple
of its argument, then the attribute lookup of `rm_groups` fails — no such
method exists on `User` or `Row` — so the pair raises `AttributeError`
right after the insert. -/
def autoAssign (gs : List String) (addArg : String) : GroupTailResult :=
  let gs1 := addGroupsString gs addArg
  if "rm_groups" ∈ userAttributes then GroupTailResult.ok gs1
  else GroupTailResult.attrError "rm_groups" gs1

/-- The tail of `_inspect_user` over the user's group rows: `match` is
forced to `False` when the user was classified on entry; then
`if match: if not classified: add_groups('auto_suspect'); rm_groups('auto_legit')
elif not classified: add_groups('auto_legit'); rm_groups('auto_suspect')`. -/
def inspectGroupTail (gs : List String) (rawMatch : Bool) : GroupTailResult :=
  let classified := decide ("legit" ∈ gs) || decide ("suspect" ∈ gs)
  let m := if classified then false else rawMatch
  if m then
    if !classified then autoAssign gs "auto_suspect"
    else GroupTailResult.ok gs
  else if !classified then autoAssign gs "auto_legit"
  else GroupTailResult.ok gs

/-! ## `Crawler.fetch_new_user_ids` -/

/-- Loop state of `fetch_new_user_ids`: the current page, the count of pages
actually scanned, the `num_uids` accumulator (initialised to 0 and — as in
the source — never incremented), and the IDs inserted into `new_user`. -/
structure FetchState where
  page : Nat
  pagesScanned : Nat
  numUids : Nat
  inserted : List Nat
deriving DecidableEq

/-- Result of a `fetch_new_user_ids` call. -/
inductive FetchResult
  | done (nextPage : Nat) (inserted : List Nat)
  | noUsersReturned
  | outOfFuel
deriving DecidableEq

/-- The page number returned by a completed `fetch_new_user_ids` call. -/
def FetchResult.nextPage? : FetchResult → Option Nat
  | .done p _ => some p
  | _ => none

/-- The IDs a completed `fetch_new_user_ids` call inserted into `new_user`. -/
def FetchResult.inserted? : FetchResult → Option (List Nat)
  | .done _ ids => some ids
  | _ => none

/-- The `while (num_uids < 10) and (pages < 10)` loop of
`fetch_new_user_ids`.  `fresh p` models "page `p` was refreshed within the
last 30 days" (such pages are skipped without being scanned), `getPage p`
the IDs returned by `get_user_ids(sortby=newest, page=p)`, and `existing`
the IDs already present in the user table.  An empty API response raises
`NoUsersReturned`; after inserting the filtered IDs the loop breaks when
none of them were new.  Fuel bounds the recursion (the skip branch does not
decrease any loop counter). -/
def fetchLoop (fresh : Nat → Bool) (getPage : Nat → List Nat)
    (existing : List Nat) : Nat → FetchState → FetchResult
  | 0, _ => .outOfFuel
  | fuel + 1, st =>
    if st.numUids < 10 ∧ st.pagesScanned < 10 then
      if 1 < st.page ∧ fresh st.page then
        fetchLoop fresh getPage existing fuel { st with page := st.page + 1 }
      else
        let ids := getPage st.page
        if ids.isEmpty then .noUsersReturned
        else
          let newIds := ids.filter (fun i => ¬ i ∈ existing)
          let st' : FetchState :=
            { page := st.page + 1, pagesScanned := st.pagesScanned + 1,
              numUids := st.numUids, inserted := st.inserted ++ newIds }
          if newIds.isEmpty then .done st'.page st'.inserted
          else fetchLoop fresh getPage existing fuel st'
    else .done st.page st.inserted

/-- `fetch_new_user_ids(page=1)`: initial state of the loop. -/
def fetchNewUserIds (fresh : Nat → Bool) (getPage : Nat → List Nat)
    (existing : List Nat) (fuel : Nat) : FetchResult :=
  fetchLoop fresh getPage existing fuel ⟨1, 0, 0, []⟩

/-! ## `HackadayAPI` rate-limited client -/

/-- `HackadayAPI.RQLIM_TIME`, the default minimum inter-request interval. -/
def RQLIM_TIME : ℚ := 30

/-- `_ratelimit_sleep`: the sleep inserted before a request when the
previous request finished less than `T` seconds ago:
`delay = (last_rq + T) - now`, slept only when positive. -/
def rateDelay (T lastRq now : ℚ) : ℚ := max 0 ((lastRq + T) - now)

/-- One outbound request: when it becomes ready (earliest possible acquire
of the single-slot semaphore) and how long the fetch takes. -/
structure Request where
  arrival : ℚ
  duration : ℚ
deriving DecidableEq

/-- The schedule produced by successive `api_fetch` calls. `Semaphore(1)`
serialises the calls, so each request acquires the slot at
`max arrival lastEnd`, sleeps `rateDelay` relative to `_last_rq` (which is
recorded when the previous fetch completed), runs for its duration, then
records `_last_rq` and releases the slot.  Returns the `(start, finish)`
interval of every request. -/
def schedule (T : ℚ) : List Request → ℚ → List (ℚ × ℚ)
  | [], _ => []
  | r :: rest, lastEnd =>
    let ready := max r.arrival lastEnd
    let start := ready + rateDelay T lastEnd ready
    let finish := start + r.duration
    (start, finish) :: schedule T rest finish

/-- `errno.EAGAIN` on Linux. -/
def EAGAIN : Int := 11

/-- What the retry loop of `api_fetch` does next after catching an
exception. -/
inductive FetchStep
  | retryLoop
  | raiseGai (errno : Int)
deriving DecidableEq

/-- The `except gaierror as e:` handler of `api_fetch` exactly as written:
`if e.errno != EAGAIN: raise` followed by an unconditional `raise` — both
branches re-raise the error to the caller. -/
def gaiHandlerCode (errno : Int) : FetchStep :=
  if errno ≠ EAGAIN then FetchStep.raiseGai errno else FetchStep.raiseGai errno

/-- The handler as the claim states it: an `EAGAIN`-class name-resolution
failure loops and retries the fetch; any other error propagates. -/
def gaiHandlerClaim (errno : Int) : FetchStep :=
  if errno = EAGAIN then FetchStep.retryLoop else FetchStep.raiseGai errno

/-! ## `ClassifyHandler.post` — the verdict applier (server.py)

Tables are modelled as finite maps: a global corpus keyed by word text,
hostname text and word pairs, per-user counter tables keyed the same way,
and per-user trait links keyed by trait / trait-instance id. -/

/-- The global corpus tables touched by a verdict. -/
structure Corpus where
  word : String → Option GlobalRow
  hostname : String → Option GlobalRow
  wordAdj : String × String → Option GlobalRow

/-- Per-user rows of one user (`user_detail`, `user_link`, `user_word`,
`user_word_adjacent`, `user_hostname`, `user_trait`,
`user_trait_instance`, `deferred_user`). -/
structure UserRows where
  userDetail : Bool
  userLink : String → Option String
  userWord : String → Option Int
  userWordAdj : String × String → Option Int
  userHostname : String → Option Int
  userTrait : Nat → Bool
  userTraitInst : Nat → Bool
  deferredRow : Bool

/-- Whole state seen by `ClassifyHandler.post`: corpus, the `trait` and
`trait_instance` aggregate rows, one user's rows and group memberships. -/
structure VState where
  corpus : Corpus
  traits : Nat → Option GlobalRow
  traitInst : Nat → Option GlobalRow
  user : UserRows
  groups : Groups

/-- A moderator verdict. -/
inductive Verdict
  | legit
  | suspect
deriving DecidableEq

/-- `score_inc`: `+1` for legit, `-1` for suspect. -/
def direction : Verdict → Int
  | .legit => 1
  | .suspect => -1

/-- `keep_detail`: `False` for legit, `True` for suspect. -/
def keep_detail : Verdict → Bool
  | .legit => false
  | .suspect => true

/-- One `UPDATE <global> SET score = score + count*inc, count = count + count
FROM <per-user> WHERE keys match AND user_id = ...` statement: every global
row joined by a per-user counter row receives the signed delta. -/
def corpusUpdate {κ : Type} (inc : Int) (tbl : κ → Option GlobalRow)
    (per : κ → Option Int) : κ → Option GlobalRow :=
  fun k =>
    match tbl k, per k with
    | some g, some c => some ⟨g.score + c * inc, g.count + c⟩
    | some g, none => some g
    | none, _ => none

/-- The follow-up `INSERT INTO word_adjacent ... SELECT ... FROM
user_word_adjacent ... ON CONFLICT DO NOTHING`: per-user adjacency rows
without a global row create one holding `(count*inc, count)`. -/
def adjInsertMissing (inc : Int) (tbl : String × String → Option GlobalRow)
    (per : String × String → Option Int) : String × String → Option GlobalRow :=
  fun k =>
    match tbl k, per k with
    | some g, _ => some g
    | none, some c => some ⟨c * inc, c⟩
    | none, none => none

/-- One trait observation from `Trait.assess(user)`: the assessed trait or
trait-instance and the per-user observation count. `Sum.inl` is a singleton
trait (keyed by trait id, aggregate on the `trait` row), `Sum.inr` a keyed
trait instance (aggregate on the `trait_instance` row). -/
abbrev TraitObs : Type := Sum Nat Nat × Int

/-- The singleton-trait key of an observation, if it is one. -/
def obsSingle : TraitObs → Option (Nat × Int)
  | (.inl t, c) => some (t, c)
  | (.inr _, _) => none

/-- The trait-instance key of an observation, if it is one. -/
def obsInst : TraitObs → Option (Nat × Int)
  | (.inr t, c) => some (t, c)
  | (.inl _, _) => none

/-- `SingletonTrait.increment` / `TraitInstance.increment` driven by
`increment_trait(score_inc)`: skip when the observation count is zero,
otherwise add `count*direction` to the score and `count` to the count of
the aggregate row. -/
def traitIncrement (inc : Int) (sel : TraitObs → Option (Nat × Int))
    (obs : List TraitObs) (tbl : Nat → Option GlobalRow) :
    Nat → Option GlobalRow :=
  obs.foldl
    (fun acc o =>
      match sel o with
      | none => acc
      | some (t, c) =>
        if c = 0 then acc
        else fun j =>
          if j = t then
            (acc j).map (fun g => ⟨g.score + c * inc, g.count + c⟩)
          else acc j)
    tbl

/-- `UserSingletonTraitInstance.discard` / `UserTraitInstance.discard`,
executed for every observation regardless of the verdict: the per-user
link row is deleted. -/
def traitDiscard (sel : TraitObs → Option (Nat × Int)) (obs : List TraitObs)
    (links : Nat → Bool) : Nat → Bool :=
  fun t =>
    links t && !(obs.any (fun o => (sel o).any (fun p => decide (p.1 = t))))

/-- `ClassifyHandler.post` after decoding the payload, in source order:
remove the user from `auto_%`, `legit` and `suspect`; add the chosen manual
group; add `count*score_inc` / `count` to every joined `hostname`, `word`
and `word_adjacent` row and create missing `word_adjacent` rows; increment
and discard every assessed trait observation; when `keep_detail` is false
delete the user's `user_detail`, `user_link`, `user_word`,
`user_word_adjacent`, `user_hostname`, `user_trait` and
`user_trait_instance` rows; finally delete any `deferred_user` row. -/
def applyVerdict (v : Verdict) (obs : List TraitObs) (st : VState) : VState :=
  let inc := direction v
  let groups' : Groups :=
    { auto_legit := false, auto_suspect := false,
      legit := v = Verdict.legit, suspect := v = Verdict.suspect }
  let corpus' : Corpus :=
    { word := corpusUpdate inc st.corpus.word st.user.userWord,
      hostname := corpusUpdate inc st.corpus.hostname st.user.userHostname,
      wordAdj := adjInsertMissing inc
        (corpusUpdate inc st.corpus.wordAdj st.user.userWordAdj)
        st.user.userWordAdj }
  let traits' := traitIncrement inc obsSingle obs st.traits
  let traitInst' := traitIncrement inc obsInst obs st.traitInst
  let userAfterDiscard : UserRows :=
    { st.user with
        userTrait := traitDiscard obsSingle obs st.user.userTrait,
        userTraitInst := traitDiscard obsInst obs st.user.userTraitInst }
  let user' : UserRows :=
    if keep_detail v then
      { userAfterDiscard with deferredRow := false }
    else
      { userDetail := false, userLink := fun _ => none,
        userWord := fun _ => none, userWordAdj := fun _ => none,
        userHostname := fun _ => none, userTrait := fun _ => false,
        userTraitInst := fun _ => false, deferredRow := false }
  { corpus := corpus', traits := traits', traitInst := traitInst',
    user := user', groups := groups' }

/-! ## Theorems settling the claims -/

/-- C1: the claim says a DeferredUser row is written (or advanced) exactly
when `age < defer_max_age` and (`age < defer_min_age` or `|score| < 0.5`),
and removed otherwise.  The code diverges twice.  First, whenever the
source's own deferral condition holds, the INSERT parameters evaluate the
unbound name `config`, so the step raises `NameError` and writes no row —
shown at a young user (`age = 100`, `score = 0`) where the claim demands a
write.  Second, the source's weak-score test is `abs(score < 0.5)`, i.e.
`abs` of a boolean, which is truthy exactly when `score < 0.5`: at
`score = -1`, `age = 7200` the code's condition holds while the claim's
condition (with `|score| < 0.5`) fails. -/
theorem C1_defer_decision :
    deferStep true 0 100 = DeferOutcome.nameError
      ∧ deferConditionCode true 0 100 = true
      ∧ deferConditionClaim true 0 100 = true
      ∧ deferConditionCode true (-1) 7200 = true
      ∧ deferConditionClaim true (-1) 7200 = false := by
  have h1 : deferConditionCode true 0 100 = true := by
    norm_num [deferConditionCode, pyTruthy, pyAbsBool, defer_min_age,
      defer_max_age]
  refine ⟨?_, h1, ?_, ?_, ?_⟩
  · simp [deferStep, h1, inspectUserLocals]
  · norm_num [deferConditionClaim, defer_min_age, defer_max_age]
  · norm_num [deferConditionCode, pyTruthy, pyAbsBool, defer_min_age,
      defer_max_age]
  · norm_num [deferConditionClaim, defer_min_age, defer_max_age]

/-- C9: the claim says the prolific-projects heuristic fires exactly when
the account is at least 300 s old and `projects > 5 × age_minutes`.  The
source tests `(age > 300.0) and (projects / 60.0 > 5)`, i.e.
`projects > 300` regardless of the age — contradicting its own comment
"More than 5 projects a minute on average".  At `age = 36000` s (600 min),
`projects = 301` the code fires while the claim's condition (requiring
`projects > 3000`) fails; the heuristic does set `match` there. -/
theorem C9_prolific_projects :
    prolificConditionCode 36000 301 = true
      ∧ prolificConditionClaim 36000 301 = false
      ∧ prolificStep false 36000 301 = true
      ∧ prolificStep true 36000 3 = true := by
  have h1 : prolificConditionCode 36000 301 = true := by
    norm_num [prolificConditionCode]
  have h2 : prolificConditionCode 36000 3 = false := by
    norm_num [prolificConditionCode]
  refine ⟨h1, ?_, ?_, ?_⟩
  · norm_num [prolificConditionClaim]
  · simp [prolificStep, h1]
  · simp [prolificStep, h2]

/-- C8: the claim says an `EAGAIN`-class `gaierror` during the rate-limited
fetch is retried in place rather than propagated.  The source's handler is
`if e.errno != EAGAIN: raise` followed by an unconditional `raise`, so an
`EAGAIN` failure is re-raised to the caller, not retried. -/
theorem C8_gaierror_retry :
    gaiHandlerCode EAGAIN = FetchStep.raiseGai EAGAIN
      ∧ gaiHandlerClaim EAGAIN = FetchStep.retryLoop
      ∧ gaiHandlerCode EAGAIN ≠ gaiHandlerClaim EAGAIN := by
  decide

/-- C10: a field tokenising to exactly two words updates the word
frequencies only — `tally` guards `adjacency` behind `len(wordlist) > 2` —
while the standalone `adjacency` function applied to the same two-word list
counts its single ordered pair once. -/
theorem C10_two_word_adjacency (acc : TallyAcc) (w1 w2 : String) :
    (tally [w1, w2] acc).user_adj_freq = acc.user_adj_freq
      ∧ lookupA (adjacency [w1, w2] []) (w1, w2) = some 1 := by
  constructor
  · simp [tally]
  · simp [adjacency, bump, lookupA]

/-- C7: the claim says a completed inspection of an unclassified-on-entry
user leaves the user in exactly one of `auto_legit` / `auto_suspect`, the
opposite group removed.  In the source neither auto group can ever be
assigned: `add_groups` is called with a bare string, so `tuple(groups)`
yields its characters and the INSERT's `name IN` clause matches no group
name (no row is added), and the following `user.rm_groups(...)` attribute
lookup fails — `rm_groups` is defined nowhere — raising `AttributeError`.
So the group-assignment tail of an unclassified user's inspection never
completes and leaves the group rows unchanged, for `match` true and false
alike; a user classified on entry skips both branches, so that half of the
claim does hold. -/
theorem C7_auto_group_never_assigned :
    inspectGroupTail [] true = GroupTailResult.attrError "rm_groups" []
      ∧ inspectGroupTail [] false = GroupTailResult.attrError "rm_groups" []
      ∧ addGroupsString [] "auto_suspect" = []
      ∧ addGroupsString [] "auto_legit" = []
      ∧ ¬ "rm_groups" ∈ userAttributes
      ∧ ¬ "auto_suspect" ∈ pyTupleOfString "auto_suspect"
      ∧ inspectGroupTail ["legit"] false = GroupTailResult.ok ["legit"]
      ∧ inspectGroupTail ["suspect"] true = GroupTailResult.ok ["suspect"] := by
  decide

/-- A concrete discovery feed for C5: every page returns twelve user IDs,
none of which are previously known. -/
def pageIdsC5 (p : Nat) : List Nat := (List.range 12).map (fun i => 100 * p + i)

set_option maxRecDepth 8000 in
/-- C5: the claim says `fetch_new_user_ids` stops as soon as ≥ 10 new IDs
have been accumulated or 10 pages have been scanned.  The source
initialises `num_uids = 0`, tests `num_uids < 10`, but never increments it,
so the accumulated-IDs stop condition can never fire: on a feed yielding 12
fresh IDs per page the call scans all 10 pages, inserts 120 IDs and returns
page 11, where the claim demands it stop after page 1 and return 2. -/
theorem C5_fetch_new_user_ids :
    (fetchNewUserIds (fun _ => false) pageIdsC5 [] 20).nextPage? = some 11
      ∧ ((fetchNewUserIds (fun _ => false) pageIdsC5 [] 20).inserted?.map
          List.length) = some 120
      ∧ 10 ≤ (pageIdsC5 1).length := by
  decide

/-- The sleep of `_ratelimit_sleep` delays a request ready at `now` to at
least `lastRq + T`. -/
theorem rateDelay_ge (T lastRq now : ℚ) :
    lastRq + T ≤ now + rateDelay T lastRq now := by
  have := le_max_right (0 : ℚ) ((lastRq + T) - now)
  simp only [rateDelay]
  linarith

/-- The sleep is never negative. -/
theorem rateDelay_nonneg (T lastRq now : ℚ) : 0 ≤ rateDelay T lastRq now :=
  le_max_left _ _

/-- Every request scheduled after a request finishing at `lastEnd` starts
no earlier than `lastEnd + T`, and finishes no earlier than it starts. -/
theorem schedule_start_bound (T : ℚ) (hT : 0 ≤ T) (reqs : List Request) :
    ∀ (lastEnd : ℚ), (∀ r ∈ reqs, 0 ≤ r.duration) →
      ∀ x ∈ schedule T reqs lastEnd, lastEnd + T ≤ x.1 ∧ x.1 ≤ x.2 := by
  induction reqs with
  | nil => intro lastEnd _ x hx; simp [schedule] at hx
  | cons r rest ih =>
    intro lastEnd hd x hx
    simp only [schedule] at hx
    rcases List.mem_cons.mp hx with h | h
    · subst h
      refine ⟨?_, ?_⟩
      · have h1 := rateDelay_ge T lastEnd (max r.arrival lastEnd)
        have h2 := le_max_right r.arrival lastEnd
        simp only
        linarith
      · have hr : 0 ≤ r.duration := hd r (List.mem_cons_self r rest)
        simp only
        linarith
    · have hrest : ∀ r' ∈ rest, 0 ≤ r'.duration :=
        fun r' hr' => hd r' (List.mem_cons_of_mem _ hr')
      have hx' := ih _ hrest x h
      have h1 := rateDelay_ge T lastEnd (max r.arrival lastEnd)
      have h2 := le_max_right r.arrival lastEnd
      have hr : 0 ≤ r.duration := hd r (List.mem_cons_self r rest)
      constructor
      · have := hx'.1
        linarith
      · exact hx'.2

/-- Consecutively scheduled requests are separated by at least `T`: every
later request starts at least `T` after every earlier one finishes. -/
theorem schedule_pairwise_sep (T : ℚ) (hT : 0 ≤ T) (reqs : List Request) :
    ∀ (lastEnd : ℚ), (∀ r ∈ reqs, 0 ≤ r.duration) →
      List.Pairwise (fun a b => a.2 + T ≤ b.1) (schedule T reqs lastEnd) := by
  induction reqs with
  | nil => intro lastEnd _; simp [schedule]
  | cons r rest ih =>
    intro lastEnd hd
    have hrest : ∀ r' ∈ rest, 0 ≤ r'.duration :=
      fun r' hr' => hd r' (List.mem_cons_of_mem _ hr')
    simp only [schedule]
    refine List.Pairwise.cons ?_ (ih _ hrest)
    intro x hx
    exact (schedule_start_bound T hT rest _ hrest x hx).1

/-- C6: in the serialized schedule enforced by the client's single-slot
semaphore — each fetch acquires the slot no earlier than the previous
fetch's recorded completion and sleeps `max(0, T − (now − last_request_end))`
with `T = RQLIM_TIME = 30` — no two request intervals overlap, and every
later request starts at least `RQLIM_TIME` after every earlier one ends. -/
theorem C6_rate_limit (reqs : List Request) (lastEnd : ℚ)
    (hd : ∀ r ∈ reqs, 0 ≤ r.duration) :
    List.Pairwise (fun a b => a.2 ≤ b.1)
        (schedule RQLIM_TIME reqs lastEnd)
      ∧ List.Pairwise (fun a b => a.2 + RQLIM_TIME ≤ b.1)
          (schedule RQLIM_TIME reqs lastEnd) := by
  have hT : (0 : ℚ) ≤ RQLIM_TIME := by norm_num [RQLIM_TIME]
  have hsep := schedule_pairwise_sep RQLIM_TIME hT reqs lastEnd hd
  refine ⟨hsep.imp ?_, hsep⟩
  intro a b hab
  linarith

/-- Witness for C6: two requests arriving 2 s apart, taking 5 s and 1 s. -/
theorem C6_rate_limit_witness :
    (∀ r ∈ ([⟨0, 5⟩, ⟨2, 1⟩] : List Request), 0 ≤ r.duration)
      ∧ List.Pairwise (fun a b => a.2 ≤ b.1)
          (schedule RQLIM_TIME [⟨0, 5⟩, ⟨2, 1⟩] 0) := by
  have hdur : ∀ r ∈ ([⟨0, 5⟩, ⟨2, 1⟩] : List Request), 0 ≤ r.duration := by
    intro r hr
    rcases List.mem_cons.mp hr with h | h
    · subst h; norm_num
    · rcases List.mem_cons.mp h with h' | h'
      · subst h'; norm_num
      · simp at h'
  exact ⟨hdur, (C6_rate_limit [⟨0, 5⟩, ⟨2, 1⟩] 0 hdur).1⟩

/-- A global row joined by a per-user counter receives the signed delta. -/
theorem corpusUpdate_pos {κ : Type} (inc : Int) (tbl : κ → Option GlobalRow)
    (per : κ → Option Int) (k : κ) (c : Int) (g : GlobalRow)
    (hc : per k = some c) (hg : tbl k = some g) :
    corpusUpdate inc tbl per k = some ⟨g.score + c * inc, g.count + c⟩ := by
  simp [corpusUpdate, hc, hg]

/-- A global row without a per-user counter is untouched. -/
theorem corpusUpdate_of_per_none {κ : Type} (inc : Int)
    (tbl : κ → Option GlobalRow) (per : κ → Option Int) (k : κ)
    (hc : per k = none) : corpusUpdate inc tbl per k = tbl k := by
  cases hg : tbl k <;> simp [corpusUpdate, hc, hg]

/-- The UPDATE never creates a global row. -/
theorem corpusUpdate_of_tbl_none {κ : Type} (inc : Int)
    (tbl : κ → Option GlobalRow) (per : κ → Option Int) (k : κ)
    (hg : tbl k = none) : corpusUpdate inc tbl per k = none := by
  cases hc : per k <;> simp [corpusUpdate, hc, hg]

/-- `ON CONFLICT DO NOTHING`: an existing adjacency row is kept. -/
theorem adjInsertMissing_of_some (inc : Int)
    (tbl : String × String → Option GlobalRow)
    (per : String × String → Option Int) (k : String × String) (g : GlobalRow)
    (hg : tbl k = some g) : adjInsertMissing inc tbl per k = some g := by
  simp [adjInsertMissing, hg]

/-- A per-user adjacency row without a global row creates one carrying the
verdict's contribution. -/
theorem adjInsertMissing_of_none_some (inc : Int)
    (tbl : String × String → Option GlobalRow)
    (per : String × String → Option Int) (k : String × String) (c : Int)
    (hg : tbl k = none) (hc : per k = some c) :
    adjInsertMissing inc tbl per k = some ⟨c * inc, c⟩ := by
  simp [adjInsertMissing, hg, hc]

/-- The INSERT adds nothing where the user has no adjacency counter. -/
theorem adjInsertMissing_of_per_none (inc : Int)
    (tbl : String × String → Option GlobalRow)
    (per : String × String → Option Int) (k : String × String)
    (hc : per k = none) : adjInsertMissing inc tbl per k = tbl k := by
  cases hg : tbl k <;> simp [adjInsertMissing, hg, hc]

/-- A legit verdict empties the per-user word counters. -/
theorem applyVerdict_legit_userWord (obs : List TraitObs) (st : VState) :
    (applyVerdict Verdict.legit obs st).user.userWord = fun _ => none := rfl

/-- C2 (amended): a verdict adds `direction × user_count` to the score and
`user_count` to the count of every global Hostname, Word and WordAdjacent
row referenced by the user's per-user counters, creating missing
WordAdjacent rows with exactly that contribution (initial score 0 plus the
addition); afterwards a legit verdict deletes all per-user rows, while a
suspect verdict keeps `user_detail`, `user_link`, `user_word`,
`user_word_adjacent` and `user_hostname` but still removes the per-user
trait links of every assessed observation (`discard` runs for both
verdicts). -/
theorem C2_verdict_amended (v : Verdict) (obs : List TraitObs) (st : VState) :
    (∀ k c g, st.user.userWord k = some c → st.corpus.word k = some g →
        (applyVerdict v obs st).corpus.word k
          = some ⟨g.score + c * direction v, g.count + c⟩)
      ∧ (∀ k c g, st.user.userHostname k = some c →
          st.corpus.hostname k = some g →
          (applyVerdict v obs st).corpus.hostname k
            = some ⟨g.score + c * direction v, g.count + c⟩)
      ∧ (∀ k c g, st.user.userWordAdj k = some c →
          st.corpus.wordAdj k = some g →
          (applyVerdict v obs st).corpus.wordAdj k
            = some ⟨g.score + c * direction v, g.count + c⟩)
      ∧ (∀ k c, st.user.userWordAdj k = some c → st.corpus.wordAdj k = none →
          (applyVerdict v obs st).corpus.wordAdj k
            = some ⟨c * direction v, c⟩)
      ∧ (v = Verdict.legit →
          (applyVerdict v obs st).user.userDetail = false
            ∧ (applyVerdict v obs st).user.userLink = (fun _ => none)
            ∧ (applyVerdict v obs st).user.userWord = (fun _ => none)
            ∧ (applyVerdict v obs st).user.userWordAdj = (fun _ => none)
            ∧ (applyVerdict v obs st).user.userHostname = (fun _ => none)
            ∧ (applyVerdict v obs st).user.userTrait = (fun _ => false)
            ∧ (applyVerdict v obs st).user.userTraitInst = (fun _ => false))
      ∧ (v = Verdict.suspect →
          (applyVerdict v obs st).user.userDetail = st.user.userDetail
            ∧ (applyVerdict v obs st).user.userLink = st.user.userLink
            ∧ (applyVerdict v obs st).user.userWord = st.user.userWord
            ∧ (applyVerdict v obs st).user.userWordAdj = st.user.userWordAdj
            ∧ (applyVerdict v obs st).user.userHostname = st.user.userHostname
            ∧ (applyVerdict v obs st).user.userTrait
                = traitDiscard obsSingle obs st.user.userTrait
            ∧ (applyVerdict v obs st).user.userTraitInst
                = traitDiscard obsInst obs st.user.userTraitInst) := by
  refine ⟨?_, ?_, ?_, ?_, ?_, ?_⟩
  · intro k c g hc hg
    simp only [applyVerdict]
    exact corpusUpdate_pos _ _ _ _ _ _ hc hg
  · intro k c g hc hg
    simp only [applyVerdict]
    exact corpusUpdate_pos _ _ _ _ _ _ hc hg
  · intro k c g hc hg
    simp only [applyVerdict]
    rw [adjInsertMissing_of_some _ _ _ _ ⟨g.score + c * direction v, g.count + c⟩
      (corpusUpdate_pos _ _ _ _ _ _ hc hg)]
  · intro k c hc hg
    simp only [applyVerdict]
    rw [adjInsertMissing_of_none_some _ _ _ _ c
      (corpusUpdate_of_tbl_none _ _ _ _ hg) hc]
  · rintro rfl
    refine ⟨rfl, rfl, rfl, rfl, rfl, rfl, rfl⟩
  · rintro rfl
    refine ⟨rfl, rfl, rfl, rfl, rfl, rfl, rfl⟩

/-- A user with one persisted word counter `UserWord(hello) = 3` over a
fresh global Word row, currently auto-legit. -/
def verdictExample : VState :=
  { corpus :=
      { word := fun k => if k = "hello" then some ⟨0, 0⟩ else none,
        hostname := fun _ => none, wordAdj := fun _ => none },
    traits := fun _ => none, traitInst := fun _ => none,
    user :=
      { userDetail := true, userLink := fun _ => none,
        userWord := fun k => if k = "hello" then some 3 else none,
        userWordAdj := fun _ => none, userHostname := fun _ => none,
        userTrait := fun _ => false, userTraitInst := fun _ => false,
        deferredRow := false },
    groups := ⟨true, false, false, false⟩ }

/-- Witness for C2 on `verdictExample`: a legit verdict moves the word's
user count 3 into the global row. -/
theorem C2_verdict_amended_witness :
    verdictExample.user.userWord "hello" = some 3
      ∧ verdictExample.corpus.word "hello" = some ⟨0, 0⟩
      ∧ (applyVerdict Verdict.legit [] verdictExample).corpus.word "hello"
          = some ⟨0 + 3 * direction Verdict.legit, 0 + 3⟩ := by
  refine ⟨by simp [verdictExample], by simp [verdictExample], ?_⟩
  exact (C2_verdict_amended Verdict.legit [] verdictExample).1 "hello" 3 ⟨0, 0⟩
    (by simp [verdictExample]) (by simp [verdictExample])

/-- A user linked to trait instance 5 with one observation of count 1. -/
def verdictTraitExample : VState :=
  { corpus :=
      { word := fun _ => none, hostname := fun _ => none,
        wordAdj := fun _ => none },
    traits := fun _ => none,
    traitInst := fun i => if i = 5 then some ⟨0, 0⟩ else none,
    user :=
      { userDetail := true, userLink := fun _ => none,
        userWord := fun _ => none, userWordAdj := fun _ => none,
        userHostname := fun _ => none, userTrait := fun _ => false,
        userTraitInst := fun i => decide (i = 5), deferredRow := false },
    groups := ⟨false, true, false, false⟩ }

/-- C2 counterexample: the claim says a suspect verdict keeps the user's
UserTraitInstance rows, but `discard` runs for every assessed observation
regardless of the verdict: after a suspect verdict on a user linked to
trait instance 5 with one observation, the link row is gone. -/
theorem C2_verdict_counterexample :
    verdictTraitExample.user.userTraitInst 5 = true
      ∧ (applyVerdict Verdict.suspect [(Sum.inr 5, 1)]
          verdictTraitExample).user.userTraitInst 5 = false := by
  constructor
  · simp [verdictTraitExample]
  · simp [applyVerdict, keep_detail, verdictTraitExample, traitDiscard,
      obsInst]

/-- C3 counterexample: the claim says legit-then-suspect yields a zero net
score delta on `Word(hello)` (`count += 3` twice, final row `(0, 6)`) and
keeps `UserWord(hello) = 3`.  In the code the legit verdict deletes the
per-user counters, so the suspect verdict finds none: the final global row
is `(3, 3)`, not `(0, 6)`, and the UserWord row is gone.  The user does end
in group `suspect`. -/
theorem C3_verdict_counterexample :
    (applyVerdict Verdict.suspect []
        (applyVerdict Verdict.legit [] verdictExample)).corpus.word "hello"
        = some ⟨3, 3⟩
      ∧ (applyVerdict Verdict.suspect []
          (applyVerdict Verdict.legit [] verdictExample)).corpus.word "hello"
          ≠ some ⟨0, 6⟩
      ∧ (applyVerdict Verdict.suspect []
          (applyVerdict Verdict.legit [] verdictExample)).user.userWord "hello"
          = none
      ∧ (applyVerdict Verdict.suspect []
          (applyVerdict Verdict.legit [] verdictExample)).groups.suspect
          = true := by
  refine ⟨?_, ?_, rfl, rfl⟩
  · simp [applyVerdict, keep_detail, verdictExample, corpusUpdate,
      adjInsertMissing, direction]
  · simp [applyVerdict, keep_detail, verdictExample, corpusUpdate,
      adjInsertMissing, direction]

/-- C3 (amended): `apply_verdict(u, legit)` then `apply_verdict(u, suspect)`
leaves `u` in exactly the group `suspect`, but the second verdict
contributes nothing to the corpus: the legit verdict deleted the per-user
counters, so every global Word row keeps the value it had after the first
verdict — each affected word's score and count grow by the user count
exactly once — and the UserWord rows are absent afterwards. -/
theorem C3_verdict_roundtrip (st : VState) (obs1 obs2 : List TraitObs) :
    (applyVerdict Verdict.suspect obs2
        (applyVerdict Verdict.legit obs1 st)).groups
        = ⟨false, false, false, true⟩
      ∧ (∀ k, (applyVerdict Verdict.suspect obs2
          (applyVerdict Verdict.legit obs1 st)).corpus.word k
          = (applyVerdict Verdict.legit obs1 st).corpus.word k)
      ∧ (∀ k, (applyVerdict Verdict.suspect obs2
          (applyVerdict Verdict.legit obs1 st)).corpus.hostname k
          = (applyVerdict Verdict.legit obs1 st).corpus.hostname k)
      ∧ (∀ k, (applyVerdict Verdict.suspect obs2
          (applyVerdict Verdict.legit obs1 st)).corpus.wordAdj k
          = (applyVerdict Verdict.legit obs1 st).corpus.wordAdj k)
      ∧ (∀ k c g, st.user.userWord k = some c → st.corpus.word k = some g →
          (applyVerdict Verdict.suspect obs2
            (applyVerdict Verdict.legit obs1 st)).corpus.word k
            = some ⟨g.score + c, g.count + c⟩)
      ∧ (∀ k, (applyVerdict Verdict.suspect obs2
          (applyVerdict Verdict.legit obs1 st)).user.userWord k = none) := by
  have hword : ∀ k, (applyVerdict Verdict.suspect obs2
      (applyVerdict Verdict.legit obs1 st)).corpus.word k
      = (applyVerdict Verdict.legit obs1 st).corpus.word k := by
    intro k
    simp only [applyVerdict]
    exact corpusUpdate_of_per_none _ _ _ _ rfl
  refine ⟨rfl, hword, ?_, ?_, ?_, ?_⟩
  · intro k
    simp only [applyVerdict]
    exact corpusUpdate_of_per_none _ _ _ _ rfl
  · intro k
    simp only [applyVerdict]
    rw [adjInsertMissing_of_per_none _ _ _ _ rfl]
    exact corpusUpdate_of_per_none _ _ _ _ rfl
  · intro k c g hc hg
    rw [hword k]
    have h := corpusUpdate_pos (direction Verdict.legit) st.corpus.word
      st.user.userWord k c g hc hg
    simp only [applyVerdict]
    simpa [direction] using h
  · intro k
    rfl

/-- Witness for C3 on `verdictExample`. -/
theorem C3_verdict_roundtrip_witness :
    verdictExample.user.userWord "hello" = some 3
      ∧ verdictExample.corpus.word "hello" = some ⟨0, 0⟩
      ∧ (applyVerdict Verdict.suspect []
          (applyVerdict Verdict.legit [] verdictExample)).corpus.word "hello"
          = some ⟨0 + 3, 0 + 3⟩ := by
  refine ⟨by simp [verdictExample], by simp [verdictExample], ?_⟩
  exact (C3_verdict_roundtrip verdictExample [] []).2.2.2.2.1 "hello" 3 ⟨0, 0⟩
    (by simp [verdictExample]) (by simp [verdictExample])

end Hadsh
